import Mathlib

/-!
Verification of the food-delivery order core: pricing, discounts,
order lifecycle and the notification relay, shallowly embedded from the
Python/Django source (`apps/orders`, `apps/promotion`, `apps/staff`).

Money is modelled in integer cents (`ℤ`); Python `Decimal` intermediate
values are modelled as `ℚ`; `Decimal.quantize(1, ROUND_HALF_UP)` is
`roundHalfUp`.  Database rows become Lean structures, database queries
become explicit environment functions, and exceptions become `Except`.
-/

/-- Python's `Decimal.quantize(Decimal("1"), rounding=ROUND_HALF_UP)`:
round to the nearest integer, halves away from zero. -/
def roundHalfUp (x : ℚ) : ℤ :=
  if 0 ≤ x then ⌊x + 1/2⌋ else -⌊-x + 1/2⌋

/-- Python `str.upper()` (ASCII case mapping). -/
def pyUpper (s : String) : String :=
  ⟨s.data.map Char.toUpper⟩

/-- Python's whitespace test for `str.strip()`. -/
def pyIsSpace (c : Char) : Bool :=
  c = ' ' || c = '\t' || c = '\n' || c = '\r'

/-- Python `str.strip()`: drop whitespace from both ends. -/
def pyStrip (s : String) : String :=
  ⟨((s.data.dropWhile pyIsSpace).reverse.dropWhile pyIsSpace).reverse⟩

/-- Embeds `price_mode` of an option group / serving style (`catalog.models.PriceMode`). -/
inductive PriceMode : Type
  | addon
  | multiplier
deriving DecidableEq, Repr

section Pricing

/-- Snapshot of `catalog.models.MenuItem` (fields used by pricing). -/
structure MenuItem where
  code : String
  name : String
  basePriceCents : ℤ
  active : Bool
deriving DecidableEq, Repr

/-- Snapshot of `catalog.models.ItemOption` joined with its group
(`o.group.price_mode`, `o.group.name`). -/
structure ItemOption where
  groupName : String
  /-- Embeds `group.price_mode`; `None` falls back to `"addon"` in the code. -/
  groupPriceMode : Option PriceMode
  name : String
  /-- Embeds `price_delta_cents or 0`. -/
  priceDeltaCents : Option ℤ
  /-- Embeds `multiplier or "1"`. -/
  multiplier : Option ℚ
deriving DecidableEq, Repr

/-- An ephemeral option snapshot produced by `calc_item_unit_cents`. -/
structure OptionSnap where
  optionGroupName : String
  optionName : String
  priceDeltaCents : ℤ
  multiplier : Option ℚ
deriving DecidableEq, Repr

/-- Accumulation loop of `calc_item_unit_cents`: fold the selected options
into `(addon_sum, multiplier_product, snaps)`. -/
def calcItemFold : List ItemOption → ℚ × ℚ × List OptionSnap
  | [] => (0, 1, [])
  | o :: rest =>
    let (addon, mult, snaps) := calcItemFold rest
    match o.groupPriceMode.getD .addon with
    | .addon =>
      (addon + (o.priceDeltaCents.getD 0 : ℤ), mult,
        { optionGroupName := o.groupName, optionName := o.name,
          priceDeltaCents := o.priceDeltaCents.getD 0, multiplier := none } :: snaps)
    | .multiplier =>
      let m := o.multiplier.getD 1
      (addon, m * mult,
        { optionGroupName := o.groupName, optionName := o.name,
          priceDeltaCents := 0, multiplier := some m } :: snaps)

/-- Embeds `apps.orders.services.pricing.calc_item_unit_cents`:
`unit = as_cents_dec((base + addon) * mult)` plus the option snapshots.
The Python loop runs front-to-back appending to the accumulators; since
addition and multiplication are associative/commutative the right fold
`calcItemFold` is the same accumulation. -/
def calc_item_unit_cents (item : MenuItem) (selectedOpts : List ItemOption) :
    ℤ × List OptionSnap :=
  let (addon, mult, snaps) := calcItemFold selectedOpts
  (roundHalfUp (((item.basePriceCents : ℚ) + addon) * mult), snaps)

/-- Snapshot of `catalog.models.ServingStyle` (fields used by pricing). -/
structure ServingStyle where
  code : String
  name : String
  /-- Embeds `price_mode or "addon"`. -/
  priceMode : Option PriceMode
  /-- Embeds `Decimal(style.price_value or 0)` / `or "1"` depending on the branch. -/
  priceValue : Option ℚ
deriving DecidableEq, Repr

/-- Snapshot of `catalog.models.DinnerType` (fields used by pricing). -/
structure DinnerType where
  code : String
  name : String
  basePriceCents : ℤ
deriving DecidableEq, Repr

/-- Embeds `apps.orders.services.pricing.apply_style_to_base`: returns
`(adjusted dinner unit cents, style adjustment cents)`. -/
def apply_style_to_base (dinner : DinnerType) (style : ServingStyle) : ℤ × ℤ :=
  let base : ℚ := (dinner.basePriceCents : ℚ)
  match style.priceMode.getD .addon with
  | .addon =>
    let inc := style.priceValue.getD 0
    (roundHalfUp (base + inc), roundHalfUp inc)
  | .multiplier =>
    let m := style.priceValue.getD 1
    let newBase := roundHalfUp (base * m)
    (newBase, roundHalfUp ((newBase : ℚ) - base))

/-- Snapshot of `catalog.models.DinnerOption` joined with its group and
optional linked item, as used by the order-creation view. -/
structure DinnerOption where
  groupName : String
  /-- Embeds `getattr(dop.group, "price_mode", None) or "addon"`. -/
  groupPriceMode : Option PriceMode
  /-- Embeds `dop.name` (may be empty when a linked item provides the label). -/
  name : String
  /-- name of the linked `MenuItem`, when `item_id` is set. -/
  itemName : Option String
  /-- Embeds `getattr(dop, "price_delta_cents", 0) or 0`. -/
  priceDeltaCents : Option ℤ
  /-- Embeds `getattr(dop, "multiplier", None) or "1"`. -/
  multiplier : Option ℚ
deriving DecidableEq, Repr

/-- One step of the dinner-option loop in `OrderListCreateAPIView.post`
(and identically in `OrderPricePreviewAPIView.post`): the delta an option
contributes at the current running unit price. -/
def dinnerOptionDelta (unitCents : ℤ) (dop : DinnerOption) : ℤ :=
  match dop.groupPriceMode.getD .addon with
  | .addon => dop.priceDeltaCents.getD 0
  | .multiplier =>
    roundHalfUp ((unitCents : ℚ) * (dop.multiplier.getD 1 - 1))

/-- The dinner-option loop of `OrderListCreateAPIView.post` (lines 329-338):
sequentially `delta := ...; unit_cents += delta; opt_deltas.append(delta)`.
Returns the final running unit price and the collected `opt_deltas`. -/
def applyDinnerOptions (unitCents : ℤ) : List DinnerOption → ℤ × List ℤ
  | [] => (unitCents, [])
  | dop :: rest =>
    let delta := dinnerOptionDelta unitCents dop
    let (finalUnit, deltas) := applyDinnerOptions (unitCents + delta) rest
    (finalUnit, delta :: deltas)

end Pricing

section Discounts

/-- Row of `promotion.models.Coupon` (fields used by `evaluate_discounts`).
Timestamps are modelled as integers. -/
structure Coupon where
  code : String
  name : String
  label : String
  active : Bool
  /-- Embeds `"percent"` or `"fixed"` (`KIND_CHOICES`); the code tests `== "percent"`. -/
  kind : String
  value : ℚ
  validFrom : Option ℤ
  validUntil : Option ℤ
  minSubtotalCents : Option ℤ
  maxDiscountCents : Option ℤ
  stackableWithMembership : Bool
  stackableWithCoupons : Bool
  channel : String
  maxRedemptionsGlobal : Option ℕ
  maxRedemptionsPerUser : Option ℕ
deriving DecidableEq, Repr

/-- Embeds `Coupon.is_valid_now`: active, and inside the optional validity window. -/
def Coupon.is_valid_now (c : Coupon) (now : ℤ) : Bool :=
  if !c.active then false
  else if c.validFrom.any (fun vf => decide (now < vf)) then false
  else if c.validUntil.any (fun vu => decide (vu < now)) then false
  else true

/-- Row of `promotion.models.Membership` (one per customer); named
`MembershipRow` because `Membership` is taken by Mathlib. -/
structure MembershipRow where
  label : String
  percentOff : ℚ
  active : Bool
  validFrom : Option ℤ
  validUntil : Option ℤ
deriving DecidableEq, Repr

/-- Embeds `Membership.is_valid_now`. -/
def MembershipRow.is_valid_now (m : MembershipRow) (now : ℤ) : Bool :=
  if !m.active then false
  else if m.validFrom.any (fun vf => decide (now < vf)) then false
  else if m.validUntil.any (fun vu => decide (vu < now)) then false
  else true

/-- One entry of the `discounts` list built by `evaluate_discounts`. -/
structure DiscountLine where
  type : String
  label : String
  code : Option String
  amountCents : ℤ
deriving DecidableEq, Repr

/-- Read-only database state consulted by `evaluate_discounts`:
the coupon table, the membership row per customer, and the
`CouponRedemption` counts (global and per-user) keyed by coupon code
(codes are unique in the table). -/
structure EvalEnv where
  now : ℤ
  coupons : List Coupon
  membershipOf : ℕ → Option MembershipRow
  usedGlobal : String → ℕ
  usedByUser : String → ℕ → ℕ

/-- Python truthiness of `customer_id` (`None` and `0` are falsy). -/
def customerTruthy : Option ℕ → Bool
  | none => false
  | some cid => cid != 0

/-- Embeds `promotion.services._normalize_codes`:
`[c.upper().strip() for c in (codes or []) if str(c).strip()]`. -/
def normalize_codes (codes : List String) : List String :=
  (codes.filter (fun c => pyStrip c ≠ "")).map (fun c => pyStrip (pyUpper c))

/-- Embeds `promotion.services._membership_line`: membership percent of the
subtotal, rounded half-up; `None` when there is no applicable line. -/
def membership_line (env : EvalEnv) (customerId : Option ℕ)
    (subtotalCents : ℤ) : Option DiscountLine :=
  if !customerTruthy customerId then none
  else
    match customerId with
    | none => none
    | some cid =>
      match env.membershipOf cid with
      | none => none
      | some m =>
        -- the query itself filters `active=True`; `is_valid_now` re-checks it
        if !(m.active && m.is_valid_now env.now) then none
        else
          let amt := roundHalfUp ((subtotalCents : ℚ) * (m.percentOff / 100))
          if amt ≤ 0 then none
          else some { type := "membership",
                      label := if m.label ≠ "" then m.label else "Membership",
                      code := none, amountCents := amt }

/-- Embeds `promotion.services._coupon_amount`: one coupon's discount against a
base amount — percent or fixed, rounded half-up, capped by
`max_discount_cents`, floored at zero. -/
def coupon_amount (c : Coupon) (baseAmountCents : ℤ) : ℤ :=
  let amt : ℤ :=
    if c.kind = "percent" then roundHalfUp ((baseAmountCents : ℚ) * (c.value / 100))
    else roundHalfUp c.value
  let amt := match c.maxDiscountCents with | some mx => min amt mx | none => amt
  max 0 amt

/-- The dict `coupons = {c.code: c for c in Coupon.objects.filter(code__in=codes)}`
followed by `coupons.get(code.upper())` (codes are unique in the table). -/
def couponLookup (env : EvalEnv) (code : String) : Option Coupon :=
  env.coupons.find? (fun c => c.code = pyUpper code)

/-- Embeds `channel or "GUI"` (empty string is falsy). -/
def effectiveChannel (channel : String) : String :=
  if channel = "" then "GUI" else channel

/-- The eligibility loop of `evaluate_discounts` (lines 86-113): for each
normalized code, look the coupon up and drop it unless it is valid now,
on the right channel, over its minimum subtotal (checked against the
original subtotal), under both redemption caps, and stackable with an
already-applied membership line; the surviving coupon is paired with its
amount computed against `running` (the post-membership running total). -/
def eligibleCoupons (env : EvalEnv) (subtotalCents running : ℤ)
    (customerId : Option ℕ) (channel : String) (membershipApplied : Bool)
    (codes : List String) : List (Coupon × ℤ) :=
  codes.filterMap (fun code =>
    match couponLookup env code with
    | none => none
    | some c =>
      if !c.is_valid_now env.now then none
      else if !(c.channel = "ANY" || c.channel = effectiveChannel channel) then none
      else if c.minSubtotalCents.any (fun ms => decide (subtotalCents < ms)) then none
      else if (c.maxRedemptionsPerUser.any (fun mx =>
                 customerTruthy customerId &&
                 (customerId.any (fun cid => decide (env.usedByUser c.code cid ≥ mx))))) then none
      else if c.maxRedemptionsGlobal.any (fun mx => decide (env.usedGlobal c.code ≥ mx)) then none
      else if membershipApplied && !c.stackableWithMembership then none
      else
        let amount := coupon_amount c running
        if amount > 0 then some (c, amount) else none)

/-- Embeds `c.label or c.name or c.code` (first non-empty string). -/
def couponLabel (c : Coupon) : String :=
  if c.label ≠ "" then c.label else if c.name ≠ "" then c.name else c.code

/-- Build one `type="coupon"` discount line. -/
def couponLine (c : Coupon) (amountCents : ℤ) : DiscountLine :=
  { type := "coupon", label := couponLabel c, code := some c.code,
    amountCents := amountCents }

/-- Python `max(eligible, key=lambda t: t[1])`: the first entry with the
maximal amount (later entries replace only on strict improvement). -/
def bestEligible (e : Coupon × ℤ) (es : List (Coupon × ℤ)) : Coupon × ℤ :=
  es.foldl (fun b y => if y.2 > b.2 then y else b) e

/-- The stacking application loop of `evaluate_discounts` (lines 131-141):
each eligible amount is capped at the current running total, skipped if
the cap leaves nothing, and subtracted from the running total.  Returns
the final running total and the coupon lines in application order. -/
def applyStackable (running : ℤ) : List (Coupon × ℤ) → ℤ × List DiscountLine
  | [] => (running, [])
  | (c, preAmt) :: rest =>
    let amt := min preAmt running
    if amt ≤ 0 then applyStackable running rest
    else
      let (r, ls) := applyStackable (running - amt) rest
      (r, couponLine c amt :: ls)

/-- Sum of the `amount_cents` of a discount list
(`sum(d["amount_cents"] for d in discounts)`). -/
def discountTotal (ls : List DiscountLine) : ℤ :=
  (ls.map (·.amountCents)).sum

/-- Steps 2 and 3 of `evaluate_discounts` (candidate collection and
application): given the lines and running total left by the membership
step, find the eligible coupons among the normalized codes and apply
them — if any eligible coupon refuses stacking with coupons, only the
single best one, capped at the running total; otherwise every one in
input order, each capped at the running total as it stands. -/
def applyCouponPhase (env : EvalEnv) (subtotalCents : ℤ)
    (customerId : Option ℕ) (channel : String)
    (discounts0 : List DiscountLine) (running0 : ℤ)
    (membershipApplied : Bool) (codes : List String) :
    List DiscountLine × ℤ × ℤ :=
  if codes = [] then (discounts0, discountTotal discounts0, running0)
  else
    match eligibleCoupons env subtotalCents running0 customerId channel
        membershipApplied codes with
    | [] => (discounts0, discountTotal discounts0, running0)
    | e :: es =>
      if (e :: es).any (fun t => !t.1.stackableWithCoupons) then
        let best := bestEligible e es
        let applyAmt := min best.2 running0
        let lines := discounts0 ++ [couponLine best.1 applyAmt]
        (lines, discountTotal lines, running0 - applyAmt)
      else
        let res := applyStackable running0 (e :: es)
        let lines := discounts0 ++ res.2
        (lines, discountTotal lines, res.1)

/-- Embeds `promotion.services.evaluate_discounts`: returns
`(discounts, total_discount_cents, total_after_cents)`.  Membership line
first (subtracted from the running total), then the coupon phase over
the normalized codes. -/
def evaluate_discounts (env : EvalEnv) (subtotalCents : ℤ)
    (customerId : Option ℕ) (channel : String) (couponCodes : List String) :
    List DiscountLine × ℤ × ℤ :=
  let membership := membership_line env customerId subtotalCents
  let discounts0 : List DiscountLine :=
    match membership with | some l => [l] | none => []
  let running0 : ℤ :=
    match membership with
    | some l => subtotalCents - l.amountCents
    | none => subtotalCents
  applyCouponPhase env subtotalCents customerId channel discounts0 running0
    membership.isSome (normalize_codes couponCodes)

end Discounts

section Lifecycle

/-- Embeds `orders.models.OrderStatus`. -/
inductive OrderStatus : Type
  | pending
  | preparing
  | outForDelivery
  | delivered
  | canceled
deriving DecidableEq, Repr

/-- One entry of the append-only `meta["staff_ops"]` operation log
(`Order._append_staff_op`). -/
structure StaffOp where
  event : String
  byStaff : Option ℕ
  atTime : ℤ
  note : String
deriving DecidableEq, Repr

/-- The mutable order fields the lifecycle methods touch: `status` and the
operation log inside `meta`. -/
structure OrderState where
  status : OrderStatus
  staffOps : List StaffOp
deriving DecidableEq, Repr

/-- Embeds `Order._append_staff_op(event, by, note)`: append one entry
(`note or ""`) to `meta["staff_ops"]`. -/
def appendStaffOp (o : OrderState) (event : String) (byStaff : Option ℕ)
    (t : ℤ) (note : Option String) : OrderState :=
  { o with staffOps := o.staffOps ++ [⟨event, byStaff, t, note.getD ""⟩] }

/-- Failure switches for each fallible step inside `Order._notify`:
reading `settings.ORDERS_NOTIFY_CHANNELS`, `json.dumps`, and executing
`pg_notify`; plus whether the connection is in an atomic block (then the
send is only registered via `transaction.on_commit`). -/
structure NotifyEnv where
  settingsOk : Bool
  encodeOk : Bool
  inAtomicBlock : Bool
  execOk : Bool
deriving DecidableEq, Repr

/-- What became of a notification attempt. -/
inductive NotifyOutcome : Type
  | sent
  | registeredOnCommit
  | swallowed
deriving DecidableEq, Repr

/-- The body of `Order._notify` without its `try`: `Except.error` models a
raised exception at the corresponding step. -/
def notifyBody (env : NotifyEnv) : Except String NotifyOutcome :=
  if !env.settingsOk then .error "settings lookup failed"
  else if !env.encodeOk then .error "json encoding failed"
  else if env.inAtomicBlock then .ok .registeredOnCommit
  else if !env.execOk then .error "pg_notify failed"
  else .ok .sent

/-- Embeds `Order._notify`: the entire body is wrapped in
`try ... except Exception: pass`, so any failure is a no-op. -/
def Order_notify (env : NotifyEnv) : NotifyOutcome :=
  match notifyBody env with
  | .ok o => o
  | .error _ => .swallowed

/-- Embeds `Order.accept`: only from PENDING; moves to PREPARING, appends the
`accept` log entry and fires the (failure-proof) notification. -/
def Order.accept (o : OrderState) (byStaff : Option ℕ) (t : ℤ)
    (nenv : NotifyEnv) : Except String OrderState :=
  if o.status ≠ .pending then .error "Only pending orders can be accepted."
  else
    let o := appendStaffOp { o with status := .preparing } "accept" byStaff t none
    let _ := Order_notify nenv
    .ok o

/-- Embeds `Order.mark_ready`: only from PREPARING; annotation only, `status`
unchanged. -/
def Order.mark_ready (o : OrderState) (byStaff : Option ℕ) (t : ℤ)
    (nenv : NotifyEnv) : Except String OrderState :=
  if o.status ≠ .preparing then .error "Only preparing orders can be marked ready."
  else
    let o := appendStaffOp o "mark_ready" byStaff t none
    let _ := Order_notify nenv
    .ok o

/-- Embeds `Order.out_for_delivery`: only from PREPARING. -/
def Order.out_for_delivery (o : OrderState) (byStaff : Option ℕ) (t : ℤ)
    (nenv : NotifyEnv) : Except String OrderState :=
  if o.status ≠ .preparing then .error "Only preparing orders can go out for delivery."
  else
    let o := appendStaffOp { o with status := .outForDelivery } "out_for_delivery" byStaff t none
    let _ := Order_notify nenv
    .ok o

/-- Embeds `Order.deliver`: only from OUT_FOR_DELIVERY. -/
def Order.deliver (o : OrderState) (byStaff : Option ℕ) (t : ℤ)
    (nenv : NotifyEnv) : Except String OrderState :=
  if o.status ≠ .outForDelivery then .error "Only orders out for delivery can be delivered."
  else
    let o := appendStaffOp { o with status := .delivered } "deliver" byStaff t none
    let _ := Order_notify nenv
    .ok o

/-- Embeds `Order.cancel`: from any non-terminal status; records the reason. -/
def Order.cancel (o : OrderState) (byStaff : Option ℕ) (t : ℤ)
    (reason : Option String) (nenv : NotifyEnv) : Except String OrderState :=
  if o.status = .delivered || o.status = .canceled then
    .error "Cannot cancel already completed/canceled order."
  else
    let o := appendStaffOp { o with status := .canceled } "cancel" byStaff t reason
    let _ := Order_notify nenv
    .ok o

/-- The lifecycle actions `OrderActionAPIView.post` dispatches on
(`accept`, `mark-ready`/`ready`, `out-for-delivery`/`dispatch`/`out`,
`deliver`/`delivered`, `cancel`). -/
inductive StaffAction : Type
  | accept
  | markReady
  | dispatch
  | deliver
  | cancel
deriving DecidableEq, Repr

/-- The dispatch of `OrderActionAPIView.post`: any raised domain error
becomes the 409-conflict response (`Except.error`). -/
def applyAction (o : OrderState) (a : StaffAction) (byStaff : Option ℕ)
    (t : ℤ) (reason : Option String) (nenv : NotifyEnv) :
    Except String OrderState :=
  match a with
  | .accept => Order.accept o byStaff t nenv
  | .markReady => Order.mark_ready o byStaff t nenv
  | .dispatch => Order.out_for_delivery o byStaff t nenv
  | .deliver => Order.deliver o byStaff t nenv
  | .cancel => Order.cancel o byStaff t reason nenv

/-- The transition table of spec section 4.3, written from the spec text:
the target status when the action is permitted, `none` otherwise. -/
def specTransitionTarget : OrderStatus → StaffAction → Option OrderStatus
  | .pending, .accept => some .preparing
  | .preparing, .markReady => some .preparing
  | .preparing, .dispatch => some .outForDelivery
  | .outForDelivery, .deliver => some .delivered
  | .pending, .cancel => some .canceled
  | .preparing, .cancel => some .canceled
  | .outForDelivery, .cancel => some .canceled
  | _, _ => none

end Lifecycle

section EventRelay

/-- A JSON value (the result of `json.loads`). -/
inductive Json : Type
  | null
  | bool (b : Bool)
  | num (n : ℚ)
  | str (s : String)
  | arr (elems : List Json)
  | obj (fields : List (String × Json))

/-- Python `dict` read: first binding of the key (keys are unique). -/
def Json.objGet (fields : List (String × Json)) (k : String) : Option Json :=
  (fields.find? (fun kv => kv.1 = k)).map (fun kv => kv.2)

/-- Python `dict` write `d[k] = v`: replace the binding, else append. -/
def Json.objSet (fields : List (String × Json)) (k : String) (v : Json) :
    List (String × Json) :=
  if fields.any (fun kv => kv.1 = k) then
    fields.map (fun kv => if kv.1 = k then (k, v) else kv)
  else fields ++ [(k, v)]

/-- A raw message drained from the notification queue
(`_drain_notifies`); `channel` may be absent. -/
structure RawNote where
  channel : Option String
  payload : String

/-- The legacy trigger compatibility mapping
`{"INSERT": "order_created", "UPDATE": "order_updated", "DELETE": "order_deleted"}`. -/
def opEventMapping (op : String) : Option String :=
  if op = "INSERT" then some "order_created"
  else if op = "UPDATE" then some "order_updated"
  else if op = "DELETE" then some "order_deleted"
  else none

/-- Embeds `ch = _b2s(getattr(note, "channel", None)) or "message"`. -/
def noteChannel (n : RawNote) : String :=
  match n.channel with
  | some c => if c = "" then "message" else c
  | none => "message"

/-- The per-message normalization of `iter_order_notifications`
(lines 164-195).  `decode` is `json.loads` (`none` = raised); `_b2s` and
`_jsonable` are identities in this string model. -/
def processNote (decode : String → Option Json) (n : RawNote) : Json :=
  let ch := noteChannel n
  let obj : Json :=
    if n.payload = "" then .obj []
    else
      match decode n.payload with
      | some j => j
      | none => .obj [("raw", .str n.payload)]
  match obj with
  | .obj fields =>
    if (Json.objGet fields "event").isSome then .obj fields
    else
      match Json.objGet fields "op" with
      | some (.str op) =>
        match opEventMapping op with
        | some ev => .obj (Json.objSet fields "event" (.str ev))
        | none => .obj (Json.objSet fields "event" (.str ch))
      | _ => .obj (Json.objSet fields "event" (.str ch))
  | j => .obj [("event", .str ch), ("raw", j)]

/-- One wake of the relay loop: every drained message is normalized and
yielded, malformed ones included. -/
def drainAndProcess (decode : String → Option Json) (notes : List RawNote) :
    List Json :=
  notes.map (processNote decode)

/-- The `event` field of a processed message. -/
def Json.eventOf : Json → Option Json
  | .obj fields => Json.objGet fields "event"
  | _ => none

/-- The `raw` field of a processed message. -/
def Json.rawOf : Json → Option Json
  | .obj fields => Json.objGet fields "raw"
  | _ => none

end EventRelay

section ItemLines

/-- A persisted option snapshot row (`OrderItemOption` /
`OrderDinnerOption`). -/
structure StoredOptionRow where
  optionGroupName : String
  optionName : String
  priceDeltaCents : ℤ
  multiplier : Option ℚ
deriving DecidableEq, Repr

/-- Persisting one ephemeral item-option snapshot
(`OrderListCreateAPIView.post` lines 427-434): the row keeps the snap's
`price_delta_cents` and stores `multiplier=None` unconditionally. -/
def persistSnap (s : OptionSnap) : StoredOptionRow :=
  { optionGroupName := s.optionGroupName, optionName := s.optionName,
    priceDeltaCents := s.priceDeltaCents, multiplier := none }

/-- Persisted `OrderDinnerOption` rows (lines 351-358): the resolved
options zipped with the `opt_deltas` of the pricing loop; the stored
delta is the resolved delta and `multiplier=None`. -/
def persistDinnerOptionRows (dops : List DinnerOption) (deltas : List ℤ) :
    List StoredOptionRow :=
  (dops.zip deltas).map (fun p =>
    { optionGroupName := p.1.groupName,
      optionName := match p.1.itemName with | some n => n | none => p.1.name,
      priceDeltaCents := p.2, multiplier := none })

/-- One requested free-item line (`data["items"]` entry), with its option
ids already resolved to rows by `validate_item_options_for_item`
(option-ownership validation is upstream of the merging logic). -/
structure ItemRequest where
  code : String
  qty : ℚ
  options : List ItemOption
deriving Repr

/-- An `OrderDinnerItem` row together with its attached
`OrderItemOption` rows; rows are keyed by item (`unique_together`
`(order_dinner, item)`, item codes unique). -/
structure ItemRow where
  itemCode : String
  finalQty : ℚ
  unitPriceCents : ℤ
  isDefault : Bool
  changeType : String
  options : List StoredOptionRow
deriving DecidableEq, Repr

/-- The menu-item table; `MenuItem.objects.filter(code=..., active=True).first()`. -/
def findActiveItem (menuItems : List MenuItem) (code : String) : Option MenuItem :=
  menuItems.find? (fun m => m.code = code && m.active)

/-- The free-item loop of `OrderListCreateAPIView.post` (lines 396-434):
per requested line, price the item, add the line subtotal, then
`get_or_create` on the item — an existing row (same item code) absorbs
the quantity (`final_qty += qty`, a default row's `unchanged` tag becomes
`added`), a new row starts as non-default `added`; the option snapshots
are attached to the (possibly merged) row. -/
def processCreateItems (menuItems : List MenuItem) (rows : List ItemRow)
    (subtotal : ℤ) : List ItemRequest → Except String (List ItemRow × ℤ)
  | [] => .ok (rows, subtotal)
  | it :: rest =>
    match findActiveItem menuItems it.code with
    | none => .error ("Invalid item.code: " ++ it.code)
    | some item =>
      let priced := calc_item_unit_cents item it.options
      let lineSub := roundHalfUp ((priced.1 : ℚ) * it.qty)
      let rows :=
        if rows.any (fun r => r.itemCode = it.code) then
          rows.map (fun r =>
            if r.itemCode = it.code then
              { r with
                finalQty := r.finalQty + it.qty
                changeType := if r.isDefault && r.changeType = "unchanged"
                              then "added" else r.changeType
                options := r.options ++ priced.2.map persistSnap }
            else r)
        else
          rows ++ [{ itemCode := it.code, finalQty := it.qty,
                     unitPriceCents := priced.1, isDefault := false,
                     changeType := "added", options := priced.2.map persistSnap }]
      processCreateItems menuItems rows (subtotal + lineSub) rest

/-- One `line_items` entry of the price-preview response. -/
structure PreviewLine where
  itemCode : String
  name : String
  qty : ℚ
  unitPriceCents : ℤ
  options : List OptionSnap
  subtotalCents : ℤ
deriving DecidableEq, Repr

/-- The free-item loop of `OrderPricePreviewAPIView.post` (lines 665-693):
one `line_items` entry is appended per requested line and the line
subtotals accumulate into `items_total`. -/
def processPreviewItems (menuItems : List MenuItem) :
    List ItemRequest → Except String (List PreviewLine × ℤ)
  | [] => .ok ([], 0)
  | it :: rest =>
    match findActiveItem menuItems it.code with
    | none => .error ("Invalid item.code: " ++ it.code)
    | some item =>
      let priced := calc_item_unit_cents item it.options
      let lineSub := roundHalfUp ((priced.1 : ℚ) * it.qty)
      match processPreviewItems menuItems rest with
      | .error e => .error e
      | .ok (lines, total) =>
        .ok ({ itemCode := item.code, name := item.name, qty := it.qty,
               unitPriceCents := priced.1, options := priced.2,
               subtotalCents := lineSub } :: lines, lineSub + total)

end ItemLines

section SpecHelpers

/-- Spec section 4.1: the sum of all addon-mode option deltas of a
selection (as a `Decimal`). -/
def addonSum (opts : List ItemOption) : ℚ :=
  ((opts.filter (fun o => decide (o.groupPriceMode.getD .addon = .addon))).map
    (fun o => ((o.priceDeltaCents.getD 0 : ℤ) : ℚ))).sum

/-- Spec section 4.1: the product of all multiplier-mode option factors of
a selection. -/
def multProd (opts : List ItemOption) : ℚ :=
  ((opts.filter (fun o => decide (o.groupPriceMode.getD .addon = .multiplier))).map
    (fun o => o.multiplier.getD 1)).prod

/-- Spec section 4.1: the running unit price after applying dinner options
sequentially, each delta computed against the current running unit. -/
def runningUnitAfter (startUnit : ℤ) (dops : List DinnerOption) : ℤ :=
  dops.foldl (fun u dop => u + dinnerOptionDelta u dop) startUnit

/-- Spec section 4.4 case (c): the payload neither carries an `event`
field nor a legacy string `op` code that the mapping knows. -/
def opFallback (fields : List (String × Json)) : Prop :=
  match Json.objGet fields "op" with
  | some (Json.str op) => opEventMapping op = none
  | some _ => True
  | none => True

/-- A notification environment in which every step succeeds. -/
def okNotify : NotifyEnv :=
  { settingsOk := true, encodeOk := true, inAtomicBlock := true, execOk := true }

end SpecHelpers

section ConcreteInstances

/-- A 10%-off percent coupon `A`, stackable, unrestricted. -/
def cpnA : Coupon :=
  { code := "A", name := "Coupon A", label := "", active := true,
    kind := "percent", value := 10, validFrom := none, validUntil := none,
    minSubtotalCents := none, maxDiscountCents := none,
    stackableWithMembership := true, stackableWithCoupons := true,
    channel := "ANY", maxRedemptionsGlobal := none, maxRedemptionsPerUser := none }

/-- A second 10%-off percent coupon `B`, stackable, unrestricted. -/
def cpnB : Coupon :=
  { cpnA with code := "B", name := "Coupon B" }

/-- An evaluation environment holding coupons `A` and `B`, no
memberships, and no prior redemptions. -/
def envAB : EvalEnv :=
  { now := 0, coupons := [cpnA, cpnB], membershipOf := fun _ => none,
    usedGlobal := fun _ => 0, usedByUser := fun _ _ => 0 }

/-- A membership row whose `percent_off` exceeds 100 (the field allows up
to 999.99; the model only documents the 0-100 range in a comment). -/
def overMember : MembershipRow :=
  { label := "VIP", percentOff := 200, active := true,
    validFrom := none, validUntil := none }

/-- An environment where every customer holds the oversized membership
and no coupons exist. -/
def envOver : EvalEnv :=
  { now := 0, coupons := [], membershipOf := fun _ => some overMember,
    usedGlobal := fun _ => 0, usedByUser := fun _ _ => 0 }

/-- A plain active menu item: steak at 30,000 cents. -/
def steak : MenuItem :=
  { code := "steak", name := "Steak", basePriceCents := 30000, active := true }

/-- A multiplier-mode serving style (factor 1.2). -/
def grandStyle : ServingStyle :=
  { code := "grand", name := "Grand", priceMode := some .multiplier,
    priceValue := some (12/10) }

/-- A multiplier-mode dinner option (factor 1.1). -/
def champagneOpt : DinnerOption :=
  { groupName := "drinks", groupPriceMode := some .multiplier,
    name := "Champagne", itemName := none, priceDeltaCents := some 0,
    multiplier := some (11/10) }

/-- A multiplier-mode item option (factor 1.2). -/
def largeOpt : ItemOption :=
  { groupName := "size", groupPriceMode := some .multiplier, name := "Large",
    priceDeltaCents := some 0, multiplier := some (12/10) }

end ConcreteInstances

section PricingLemmas

lemma calcItemFold_fst (opts : List ItemOption) :
    (calcItemFold opts).1 = addonSum opts := by
  induction opts with
  | nil => simp [calcItemFold, addonSum]
  | cons o rest ih =>
    cases hm : o.groupPriceMode.getD .addon <;>
      simp [calcItemFold, hm, addonSum, List.filter_cons] at ih ⊢ <;>
      simp [ih, add_comm]

lemma calcItemFold_mult (opts : List ItemOption) :
    (calcItemFold opts).2.1 = multProd opts := by
  induction opts with
  | nil => simp [calcItemFold, multProd]
  | cons o rest ih =>
    cases hm : o.groupPriceMode.getD .addon <;>
      simp [calcItemFold, hm, multProd, List.filter_cons] at ih ⊢ <;>
      simp [ih]

end PricingLemmas

/-- C4: for every menu item and option selection, the unit price is
`round_half_up((base + Σ addon deltas) × Π multipliers)` — one rounding
after both accumulations, never per option; and the spec scenario: base
100,000 with one +2,000 addon and one ×1.2 multiplier gives 122,400. -/
theorem item_unit_price_single_rounding :
    (∀ (item : MenuItem) (opts : List ItemOption),
      (calc_item_unit_cents item opts).1
        = roundHalfUp (((item.basePriceCents : ℚ) + addonSum opts) * multProd opts))
    ∧ (calc_item_unit_cents ⟨"steak", "Steak", 100000, true⟩
        [⟨"toppings", some .addon, "Extra", some 2000, none⟩,
         ⟨"size", some .multiplier, "Large", some 0, some (12/10)⟩]).1 = 122400 := by
  constructor
  · intro item opts
    simp [calc_item_unit_cents, calcItemFold_fst, calcItemFold_mult]
  · norm_num [calc_item_unit_cents, calcItemFold, roundHalfUp]

/-- C5: dinner options are applied sequentially against the running unit
price that starts from the style-adjusted base — an addon contributes its
fixed delta, a multiplier contributes `round_half_up(running × (m − 1))`
against the *current* running unit, which is updated before the next
option; spec scenario: base 150,000, style ×1.2 → 180,000 (+30,000), then
option ×1.1 → 198,000 (+18,000, not the +15,000 the original base would
give). -/
theorem dinner_options_sequential :
    (∀ (u : ℤ) (dops : List DinnerOption),
      (applyDinnerOptions u dops).1 = runningUnitAfter u dops)
    ∧ (∀ (u : ℤ) (dop : DinnerOption) (rest : List DinnerOption),
      (applyDinnerOptions u (dop :: rest)).2
        = dinnerOptionDelta u dop
            :: (applyDinnerOptions (u + dinnerOptionDelta u dop) rest).2)
    ∧ apply_style_to_base ⟨"french", "French dinner", 150000⟩ grandStyle
        = (180000, 30000)
    ∧ applyDinnerOptions 180000 [champagneOpt] = (198000, [18000])
    ∧ dinnerOptionDelta 180000 champagneOpt = 18000
    ∧ dinnerOptionDelta 150000 champagneOpt = 15000 := by
  refine ⟨?_, ?_, ?_, ?_, ?_, ?_⟩
  · intro u dops
    induction dops generalizing u with
    | nil => simp [applyDinnerOptions, runningUnitAfter]
    | cons dop rest ih => simp [applyDinnerOptions, runningUnitAfter, ih]
  · intro u dop rest
    simp [applyDinnerOptions]
  · norm_num [apply_style_to_base, grandStyle, roundHalfUp]
  · norm_num [applyDinnerOptions, dinnerOptionDelta, champagneOpt, roundHalfUp]
  · norm_num [dinnerOptionDelta, champagneOpt, roundHalfUp]
  · norm_num [dinnerOptionDelta, champagneOpt, roundHalfUp]

/-- C3: a lifecycle action succeeds exactly when the transition table
permits it from the current status (accept: PENDING→PREPARING;
mark_ready: PREPARING, annotation only; dispatch: PREPARING→OUT;
deliver: OUT→DELIVERED; cancel: any non-terminal→CANCELED); otherwise
the method raises and the view turns the exception into the 409 conflict
response (`Except.error`), the status untouched (the guard precedes every
mutation).  Scenario: `accept` on PENDING succeeds into PREPARING, and a
second `accept` on the same order is a conflict error. -/
theorem lifecycle_transition_table :
    (∀ (o : OrderState) (a : StaffAction) (b : Option ℕ) (t : ℤ)
       (reason : Option String) (nenv : NotifyEnv),
      (applyAction o a b t reason nenv).toOption.map OrderState.status
        = specTransitionTarget o.status a)
    ∧ Order.accept ⟨.pending, []⟩ (some 7) 0 okNotify
        = .ok ⟨.preparing, [⟨"accept", some 7, 0, ""⟩]⟩
    ∧ Order.accept ⟨.preparing, [⟨"accept", some 7, 0, ""⟩]⟩ (some 7) 1 okNotify
        = .error "Only pending orders can be accepted." := by
  refine ⟨?_, ?_, ?_⟩
  · rintro ⟨st, ops⟩ a b t reason nenv
    cases a <;> cases st <;>
      simp [applyAction, Order.accept, Order.mark_ready, Order.out_for_delivery,
        Order.deliver, Order.cancel, specTransitionTarget, appendStaffOp,
        Except.toOption]
  · simp [Order.accept, appendStaffOp]
  · simp [Order.accept]

/-- C10 (implicit): `Order._notify` wraps its whole body — settings
lookup, JSON encoding, and the `pg_notify` dispatch — in
`try ... except Exception: pass`, so a failing notification step never
changes a transition's outcome: the committed state (status + appended
log entry) is identical under every notification environment, and the
transition never raises because of it. -/
theorem notify_failure_never_blocks_transition :
    (∀ (o : OrderState) (a : StaffAction) (b : Option ℕ) (t : ℤ)
       (reason : Option String) (env env' : NotifyEnv),
      applyAction o a b t reason env = applyAction o a b t reason env')
    ∧ (∀ env : NotifyEnv, (notifyBody env).isOk = false →
        Order_notify env = .swallowed)
    ∧ (∀ (o : OrderState) (b : Option ℕ) (t : ℤ) (env : NotifyEnv),
        o.status = .pending →
        Order.accept o b t env
          = .ok (appendStaffOp { o with status := .preparing } "accept" b t none)) := by
  refine ⟨fun o a b t reason env env' => rfl, ?_, ?_⟩
  · intro env h
    cases hb : notifyBody env with
    | ok v => rw [hb] at h; simp [Except.isOk, Except.toBool] at h
    | error e => simp [Order_notify, hb]
  · intro o b t env h
    simp [Order.accept, h]

/-- Witness for C10: with a notification environment whose settings
lookup fails, the failure is swallowed and `accept` still commits. -/
theorem notify_failure_never_blocks_transition_witness :
    Order_notify ⟨false, true, false, true⟩ = .swallowed
    ∧ Order.accept ⟨.pending, []⟩ none 0 ⟨false, true, false, true⟩
        = .ok ⟨.preparing, [⟨"accept", none, 0, ""⟩]⟩ :=
  ⟨notify_failure_never_blocks_transition.2.1 ⟨false, true, false, true⟩ rfl,
   notify_failure_never_blocks_transition.2.2 ⟨.pending, []⟩ none 0
     ⟨false, true, false, true⟩ rfl⟩

section RelayLemmas

lemma objGet_objSet_self (fields : List (String × Json)) (k : String) (v : Json) :
    Json.objGet (Json.objSet fields k v) k = some v := by
  unfold Json.objSet
  split
  · rename_i hany
    induction fields with
    | nil => simp at hany
    | cons kv t ih =>
      by_cases hk : kv.1 = k
      · simp [Json.objGet, List.find?, hk]
      · simp only [List.any_cons, Bool.or_eq_true, decide_eq_true_eq] at hany
        rcases hany with h | h
        · exact absurd h hk
        · simp only [List.map_cons, if_neg hk]
          simpa [Json.objGet, List.find?, hk] using ih h
  · induction fields with
    | nil => simp [Json.objGet, List.find?]
    | cons kv t ih =>
      rename_i hany
      simp only [List.any_cons, Bool.or_eq_true, not_or] at hany
      simp only [List.cons_append]
      have hk : ¬ kv.1 = k := by
        intro h
        exact hany.1 (by simp [h])
      simpa [Json.objGet, List.find?, hk] using ih (by simpa using hany.2)

lemma objGet_map_replace (t : List (String × Json)) (k k' : String)
    (v : Json) (hne : k' ≠ k) :
    Json.objGet (t.map (fun kv => if kv.1 = k then (k, v) else kv)) k'
      = Json.objGet t k' := by
  induction t with
  | nil => rfl
  | cons kv t ih =>
    by_cases hk : kv.1 = k
    · have h1 : ¬ kv.1 = k' := fun h => hne (h ▸ hk ▸ rfl)
      simp only [List.map_cons, if_pos hk]
      simpa [Json.objGet, List.find?, Ne.symm hne, h1] using ih
    · simp only [List.map_cons, if_neg hk]
      by_cases hk' : kv.1 = k'
      · simp [Json.objGet, List.find?, hk']
      · simpa [Json.objGet, List.find?, hk'] using ih

lemma objGet_append_single (t : List (String × Json)) (k k' : String)
    (v : Json) (hne : k' ≠ k) :
    Json.objGet (t ++ [(k, v)]) k' = Json.objGet t k' := by
  induction t with
  | nil => simp [Json.objGet, List.find?, Ne.symm hne]
  | cons kv t ih =>
    by_cases hk' : kv.1 = k'
    · simp [Json.objGet, List.find?, hk']
    · simpa [Json.objGet, List.find?, hk'] using ih

lemma objGet_objSet_other (fields : List (String × Json)) (k k' : String)
    (v : Json) (hne : k' ≠ k) :
    Json.objGet (Json.objSet fields k v) k' = Json.objGet fields k' := by
  unfold Json.objSet
  split
  · exact objGet_map_replace fields k k' v hne
  · exact objGet_append_single fields k k' v hne

end RelayLemmas

/-- C9: for every drained raw message, the relay derives the event name
with priority (a) an explicit `event` field of the decoded payload,
(b) a legacy `op` code INSERT/UPDATE/DELETE mapped to
order_created/order_updated/order_deleted, (c) the channel name; a
payload that fails JSON decoding is wrapped as `{raw: payload}` and still
yielded — every drained message yields exactly one event, so the loop
never dies on a malformed payload. -/
theorem relay_event_name_priority :
    ∀ (decode : String → Option Json) (n : RawNote),
      (∀ (fields : List (String × Json)) (v : Json),
        decode n.payload = some (.obj fields) → n.payload ≠ "" →
        Json.objGet fields "event" = some v →
        (processNote decode n).eventOf = some v)
      ∧ (∀ (fields : List (String × Json)) (op ev : String),
        decode n.payload = some (.obj fields) → n.payload ≠ "" →
        Json.objGet fields "event" = none →
        Json.objGet fields "op" = some (.str op) → opEventMapping op = some ev →
        (processNote decode n).eventOf = some (.str ev))
      ∧ (∀ (fields : List (String × Json)),
        decode n.payload = some (.obj fields) → n.payload ≠ "" →
        Json.objGet fields "event" = none → opFallback fields →
        (processNote decode n).eventOf = some (.str (noteChannel n)))
      ∧ (decode n.payload = none → n.payload ≠ "" →
        (processNote decode n).rawOf = some (.str n.payload)
          ∧ (processNote decode n).eventOf = some (.str (noteChannel n)))
      ∧ (∀ notes : List RawNote,
        (drainAndProcess decode notes).length = notes.length) := by
  intro decode n
  refine ⟨?_, ?_, ?_, ?_, ?_⟩
  · intro fields v hdec hp hev
    simp [processNote, hdec, hp, Json.eventOf, hev]
  · intro fields op ev hdec hp hev hop hmap
    simp [processNote, hdec, hp, Json.eventOf, hev, hop, hmap,
      objGet_objSet_self]
  · intro fields hdec hp hev hfb
    unfold opFallback at hfb
    simp only [processNote, hdec, hp, if_neg hp, Json.eventOf]
    rcases hop : Json.objGet fields "op" with _ | j
    · simp [hop, hev, objGet_objSet_self]
    · cases j <;> simp [hop, hev, objGet_objSet_self] <;>
        (rw [hop] at hfb; simp_all [objGet_objSet_self])
  · intro hdec hp
    constructor
    · simp [processNote, hdec, hp, Json.rawOf, Json.objGet, List.find?,
        Json.objSet]
    · simp [processNote, hdec, hp, Json.eventOf, Json.objGet, List.find?,
        Json.objSet, objGet_objSet_self]
  · intro notes
    simp [drainAndProcess]

/-- Witness for C9: a malformed payload (`json.loads` raises) on channel
`orders_events` is wrapped with its raw text and tagged with the channel
name as event. -/
theorem relay_event_name_priority_witness :
    (processNote (fun _ => none) ⟨some "orders_events", "oops"⟩).rawOf
      = some (.str "oops")
    ∧ (processNote (fun _ => none) ⟨some "orders_events", "oops"⟩).eventOf
      = some (.str (noteChannel ⟨some "orders_events", "oops"⟩)) :=
  (relay_event_name_priority (fun _ => none)
    ⟨some "orders_events", "oops"⟩).2.2.2.1 rfl (by simp)

section DiscountEvalLemmas

lemma eligAB_eval :
    eligibleCoupons envAB 10000 10000 none "GUI" false ["A", "B"]
      = [(cpnA, 1000), (cpnB, 1000)] := by
  norm_num [eligibleCoupons, couponLookup, envAB, cpnA, cpnB,
    List.filterMap, List.find?, Coupon.is_valid_now, effectiveChannel,
    coupon_amount, roundHalfUp,
    show pyUpper "A" = "A" from by decide,
    show pyUpper "B" = "B" from by decide,
    show (decide (("A" : String) = "A")) = true from by decide,
    show (decide (("A" : String) = "B")) = false from by decide,
    show (decide (("B" : String) = "B")) = true from by decide,
    show (decide (("B" : String) = "A")) = false from by decide]

lemma evalAB_amounts :
    (evaluate_discounts envAB 10000 none "GUI" ["A", "B"]).1.map
      DiscountLine.amountCents = [1000, 1000] := by
  norm_num [evaluate_discounts, applyCouponPhase, membership_line,
    customerTruthy, envAB,
    cpnA, cpnB, eligibleCoupons, couponLookup, List.filterMap, List.find?,
    normalize_codes, Coupon.is_valid_now, effectiveChannel, coupon_amount,
    applyStackable, couponLine, couponLabel, discountTotal, roundHalfUp,
    show pyStrip "A" = "A" from by decide,
    show pyStrip "B" = "B" from by decide,
    show pyUpper "A" = "A" from by decide,
    show pyUpper "B" = "B" from by decide,
    show (decide (("A" : String) = "A")) = true from by decide,
    show (decide (("A" : String) = "B")) = false from by decide,
    show (decide (("B" : String) = "B")) = true from by decide,
    show (decide (("B" : String) = "A")) = false from by decide,
    show (("A" : String) = "") = False from by simp,
    show (("B" : String) = "") = False from by simp,
    show (("Coupon A" : String) = "") = False from by simp,
    show (("Coupon B" : String) = "") = False from by simp,
    show ((["A", "B"] : List String) = []) = False from by simp]

end DiscountEvalLemmas

/-- C1 (amended): every surviving coupon's amount is computed — capped by
`max_discount_cents` and rounded half-up, via `_coupon_amount` — against
the post-membership running total as it stands *before any coupon is
applied*; at application time the pre-computed amount is only capped
(`min`) by the then-current running total, never recomputed.  With two
stackable 10% coupons on 10,000 both lines are 1,000 (the second is not
10% of the 9,000 left after the first). -/
theorem coupon_amounts_from_post_membership_total :
    (∀ (env : EvalEnv) (subtotal running : ℤ) (cid : Option ℕ) (ch : String)
       (msApplied : Bool) (codes : List String) (p : Coupon × ℤ),
      p ∈ eligibleCoupons env subtotal running cid ch msApplied codes →
      p.2 = coupon_amount p.1 running ∧ 0 < p.2)
    ∧ (∀ (running : ℤ) (c : Coupon) (preAmt : ℤ) (rest : List (Coupon × ℤ)),
      0 < min preAmt running →
      (applyStackable running ((c, preAmt) :: rest)).2
        = couponLine c (min preAmt running)
            :: (applyStackable (running - min preAmt running) rest).2)
    ∧ (evaluate_discounts envAB 10000 none "GUI" ["A", "B"]).1.map
        DiscountLine.amountCents = [1000, 1000] := by
  refine ⟨?_, ?_, evalAB_amounts⟩
  · intro env subtotal running cid ch msApplied codes p hp
    rw [eligibleCoupons, List.mem_filterMap] at hp
    obtain ⟨code, -, hcode⟩ := hp
    rcases hl : couponLookup env code with _ | c <;> rw [hl] at hcode
    · simp at hcode
    · dsimp only at hcode
      split_ifs at hcode with h1 h2 h3 h4 h5 h6 h7 <;> simp_all
      obtain ⟨rfl, rfl⟩ := hcode
      exact ⟨rfl, h7⟩
  · intro running c preAmt rest h
    have hn : ¬ (min preAmt running ≤ 0) := not_le.mpr h
    rcases he : applyStackable (running - min preAmt running) rest with ⟨r, ls⟩
    simp [applyStackable, hn, he]

/-- Counterexample to C1 as stated: with two stackable 10% percent
coupons over subtotal 10,000, the second applied line is 1,000 —
`_coupon_amount` against the post-first-coupon running total 9,000 would
give 900, so the second coupon's amount is *not* a percentage of the
total remaining after the first coupon. -/
theorem coupon_chain_not_recomputed :
    (evaluate_discounts envAB 10000 none "GUI" ["A", "B"]).1.map
      DiscountLine.amountCents = [1000, 1000]
    ∧ coupon_amount cpnB (10000 - 1000) = 900
    ∧ ¬ ((1000 : ℤ) = 900) := by
  refine ⟨evalAB_amounts, ?_, by norm_num⟩
  norm_num [coupon_amount, cpnB, cpnA, roundHalfUp]

/-- Witness for C1 (amended): coupon `A`'s eligible amount over base
10,000 is `_coupon_amount` of the post-membership total, and the first
stacking step caps at the running total. -/
theorem coupon_amounts_from_post_membership_total_witness :
    ((1000 : ℤ) = coupon_amount cpnA 10000 ∧ (0 : ℤ) < 1000)
    ∧ (applyStackable 9000 [(cpnB, 1000)]).2
        = couponLine cpnB (min 1000 9000)
            :: (applyStackable (9000 - min 1000 9000) []).2 :=
  ⟨coupon_amounts_from_post_membership_total.1 envAB 10000 10000 none "GUI"
      false ["A", "B"] (cpnA, 1000) (by rw [eligAB_eval]; simp),
   coupon_amounts_from_post_membership_total.2.1 9000 cpnB 1000 []
      (by norm_num)⟩

section TotalsLemmas

lemma discountTotal_cons (l : DiscountLine) (ls : List DiscountLine) :
    discountTotal (l :: ls) = l.amountCents + discountTotal ls := by
  simp [discountTotal]

lemma discountTotal_append (l1 l2 : List DiscountLine) :
    discountTotal (l1 ++ l2) = discountTotal l1 + discountTotal l2 := by
  simp [discountTotal]

lemma applyStackable_running (running : ℤ) (es : List (Coupon × ℤ)) :
    (applyStackable running es).1
      = running - discountTotal (applyStackable running es).2 := by
  induction es generalizing running with
  | nil => simp [applyStackable, discountTotal]
  | cons e rest ih =>
    obtain ⟨c, pre⟩ := e
    by_cases h : min pre running ≤ 0
    · simpa [applyStackable, h] using ih running
    · rcases he : applyStackable (running - min pre running) rest with ⟨r, ls⟩
      have h2 := ih (running - min pre running)
      rw [he] at h2
      simp only [applyStackable, if_neg h, he, discountTotal_cons, couponLine] at h2 ⊢
      omega

lemma applyStackable_nonneg (running : ℤ) (es : List (Coupon × ℤ))
    (h : 0 ≤ running) : 0 ≤ (applyStackable running es).1 := by
  induction es generalizing running with
  | nil => simpa [applyStackable] using h
  | cons e rest ih =>
    obtain ⟨c, pre⟩ := e
    by_cases hmin : min pre running ≤ 0
    · simpa [applyStackable, hmin] using ih running h
    · rcases he : applyStackable (running - min pre running) rest with ⟨r, ls⟩
      have h2 := ih (running - min pre running) (by omega)
      rw [he] at h2
      simp only [applyStackable, if_neg hmin, he]
      exact h2

lemma roundHalfUp_le (x : ℚ) (n : ℤ) (hx : x ≤ (n : ℚ)) (hn : 0 ≤ n) :
    roundHalfUp x ≤ n := by
  unfold roundHalfUp
  split
  · have h1 : (⌊x + 1/2⌋ : ℤ) ≤ ⌊(n : ℚ) + 1/2⌋ := Int.floor_le_floor (by linarith)
    have h2 : ⌊(n : ℚ) + 1/2⌋ = n := by
      rw [Int.floor_eq_iff]
      constructor
      · push_cast; linarith
      · push_cast; linarith
    omega
  · rename_i h
    push_neg at h
    have h0 : (0 : ℚ) ≤ -x + 1/2 := by linarith
    have := Int.floor_nonneg.mpr h0
    omega

lemma membership_line_le (env : EvalEnv) (cid : Option ℕ) (subtotal : ℤ)
    (hsub : 0 ≤ subtotal)
    (h100 : ∀ (cid' : ℕ) (m : MembershipRow),
      env.membershipOf cid' = some m → m.percentOff ≤ 100) :
    ∀ l, membership_line env cid subtotal = some l →
      l.amountCents ≤ subtotal := by
  intro l hl
  unfold membership_line at hl
  split_ifs at hl
  rcases cid with _ | cidv
  · simp at hl
  · dsimp only at hl
    rcases hmm : env.membershipOf cidv with _ | m <;> rw [hmm] at hl
    · simp at hl
    · dsimp only at hl
      have hp := h100 cidv m hmm
      have hx : (subtotal : ℚ) * (m.percentOff / 100) ≤ (subtotal : ℚ) := by
        calc (subtotal : ℚ) * (m.percentOff / 100)
            ≤ (subtotal : ℚ) * 1 := by
              apply mul_le_mul_of_nonneg_left (by linarith) (by exact_mod_cast hsub)
          _ = (subtotal : ℚ) := mul_one _
      have hr := roundHalfUp_le _ subtotal hx hsub
      split_ifs at hl <;>
        · simp only [Option.some.injEq] at hl
          rw [← hl]
          simpa using hr

end TotalsLemmas

section PhaseLemmas

lemma discountTotal_nil : discountTotal ([] : List DiscountLine) = 0 := rfl

lemma applyCouponPhase_total (env : EvalEnv) (subtotal : ℤ)
    (cid : Option ℕ) (ch : String) (discounts0 : List DiscountLine)
    (running0 : ℤ) (msApplied : Bool) (codes : List String)
    (h0 : running0 = subtotal - discountTotal discounts0) :
    (applyCouponPhase env subtotal cid ch discounts0 running0 msApplied codes).2.2
      = subtotal
        - (applyCouponPhase env subtotal cid ch discounts0 running0 msApplied
            codes).2.1 := by
  unfold applyCouponPhase
  split_ifs with hc
  · simpa using h0
  · rcases heg : eligibleCoupons env subtotal running0 cid ch msApplied codes
      with _ | ⟨e, es⟩
    · simpa using h0
    · dsimp only
      split_ifs with hs
      · simp only [discountTotal_append, discountTotal_cons,
          discountTotal_nil, couponLine]
        omega
      · have hr := applyStackable_running running0 (e :: es)
        simp only [discountTotal_append]
        omega

lemma applyCouponPhase_nonneg (env : EvalEnv) (subtotal : ℤ)
    (cid : Option ℕ) (ch : String) (discounts0 : List DiscountLine)
    (running0 : ℤ) (msApplied : Bool) (codes : List String)
    (h0 : 0 ≤ running0) :
    0 ≤ (applyCouponPhase env subtotal cid ch discounts0 running0 msApplied
          codes).2.2 := by
  unfold applyCouponPhase
  split_ifs with hc
  · simpa using h0
  · rcases heg : eligibleCoupons env subtotal running0 cid ch msApplied codes
      with _ | ⟨e, es⟩
    · simpa using h0
    · dsimp only
      split_ifs with hs
      · have := min_le_right (bestEligible e es).2 running0
        simp only
        omega
      · simpa using applyStackable_nonneg running0 (e :: es) h0

end PhaseLemmas

/-- C2 (amended): `evaluate_discounts` always returns
`total_after = subtotal − total_discount`; the coupon phase never drives
the running total negative (each application is capped at the running
total), and provided every membership `percent_off` is within its
documented 0-100 range (and the subtotal is non-negative) the final
total is non-negative — the code does *not* clamp the membership
subtraction itself, which is the one step that can go below zero. -/
theorem total_after_eq_subtotal_sub_discount :
    (∀ (env : EvalEnv) (subtotal : ℤ) (cid : Option ℕ) (ch : String)
       (codes : List String),
      (evaluate_discounts env subtotal cid ch codes).2.2
        = subtotal - (evaluate_discounts env subtotal cid ch codes).2.1)
    ∧ (∀ (env : EvalEnv) (subtotal : ℤ) (cid : Option ℕ) (ch : String)
       (codes : List String),
      0 ≤ subtotal →
      (∀ (cid' : ℕ) (m : MembershipRow),
        env.membershipOf cid' = some m → m.percentOff ≤ 100) →
      0 ≤ (evaluate_discounts env subtotal cid ch codes).2.2) := by
  constructor
  · intro env subtotal cid ch codes
    rcases hm : membership_line env cid subtotal with _ | l <;>
      simp only [evaluate_discounts, hm] <;>
      apply applyCouponPhase_total <;>
      simp [discountTotal]
  · intro env subtotal cid ch codes hsub h100
    rcases hm : membership_line env cid subtotal with _ | l <;>
      simp only [evaluate_discounts, hm] <;>
      apply applyCouponPhase_nonneg
    · simpa using hsub
    · have := membership_line_le env cid subtotal hsub h100 l hm
      omega

/-- Counterexample to C2 as stated: a membership with `percent_off = 200`
(the `DecimalField` admits values up to 999.99) over subtotal 100 yields
`total_after = −100`: the membership subtraction is not clamped at zero. -/
theorem negative_total_with_oversized_membership :
    (evaluate_discounts envOver 100 (some 1) "GUI" []).2.2 = -100
    ∧ ¬ (0 ≤ (evaluate_discounts envOver 100 (some 1) "GUI" []).2.2) := by
  have h : (evaluate_discounts envOver 100 (some 1) "GUI" []).2.2 = -100 := by
    norm_num [evaluate_discounts, applyCouponPhase, membership_line,
      customerTruthy, envOver, overMember, MembershipRow.is_valid_now,
      normalize_codes, discountTotal, roundHalfUp,
      show (("VIP" : String) = "") = False from by simp]
  exact ⟨h, by rw [h]; norm_num⟩

/-- Witness for C2 (amended): with no membership and two stackable 10%
coupons over 10,000, the identity and the non-negativity both hold. -/
theorem total_after_eq_subtotal_sub_discount_witness :
    (evaluate_discounts envAB 10000 none "GUI" ["A", "B"]).2.2
      = 10000 - (evaluate_discounts envAB 10000 none "GUI" ["A", "B"]).2.1
    ∧ 0 ≤ (evaluate_discounts envAB 10000 none "GUI" ["A", "B"]).2.2 :=
  ⟨total_after_eq_subtotal_sub_discount.1 envAB 10000 none "GUI" ["A", "B"],
   total_after_eq_subtotal_sub_discount.2 envAB 10000 none "GUI" ["A", "B"]
     (by norm_num) (fun cid' m h => by simp [envAB] at h)⟩

section DupEvalLemmas

lemma evalDup_pairs :
    (evaluate_discounts envAB 10000 none "GUI" ["a", "A "]).1.map
      (fun l => (l.code, l.amountCents))
      = [(some "A", 1000), (some "A", 1000)] := by
  norm_num [evaluate_discounts, applyCouponPhase, membership_line,
    customerTruthy, envAB, cpnA, cpnB, eligibleCoupons, couponLookup,
    List.filterMap, List.find?, normalize_codes, Coupon.is_valid_now,
    effectiveChannel, coupon_amount, applyStackable, couponLine,
    couponLabel, discountTotal, roundHalfUp,
    show pyStrip "a" = "a" from by decide,
    show pyStrip "A " = "A" from by decide,
    show pyStrip "A" = "A" from by decide,
    show pyUpper "a" = "A" from by decide,
    show pyUpper "A " = "A " from by decide,
    show pyUpper "A" = "A" from by decide,
    show (decide (("A" : String) = "A")) = true from by decide,
    show (decide (("B" : String) = "A")) = false from by decide,
    show (("a" : String) = "") = False from by simp,
    show (("A " : String) = "") = False from by simp,
    show (("A" : String) = "") = False from by simp,
    show (("Coupon A" : String) = "") = False from by simp,
    show ((["A", "A"] : List String) = []) = False from by simp]

end DupEvalLemmas

/-- C7 (amended): requested coupon codes are case-normalized
(uppercased, stripped, blank entries dropped) but *not* deduplicated —
`_normalize_codes` preserves every occurrence, and submitting the same
stackable coupon twice (in any letter case) produces one discount line
per occurrence; only redemption later merges per code. -/
theorem codes_normalized_not_deduplicated :
    (∀ codes : List String,
      normalize_codes (codes ++ codes)
        = normalize_codes codes ++ normalize_codes codes)
    ∧ (evaluate_discounts envAB 10000 none "GUI" ["a", "A "]).1.map
        (fun l => (l.code, l.amountCents))
        = [(some "A", 1000), (some "A", 1000)] := by
  refine ⟨?_, evalDup_pairs⟩
  intro codes
  simp [normalize_codes]

/-- Counterexample to C7 as stated: submitting the same coupon code
twice (as `"a"` and `"A "`) yields *two* discount lines for code `A` in
the returned list — the eligibility loop iterates the normalized list
without deduplication. -/
theorem duplicate_code_yields_two_lines :
    ((evaluate_discounts envAB 10000 none "GUI" ["a", "A "]).1.map
        DiscountLine.code).count (some "A") = 2
    ∧ ¬ (((evaluate_discounts envAB 10000 none "GUI" ["a", "A "]).1.map
        DiscountLine.code).count (some "A") ≤ 1) := by
  have h := congrArg (List.map Prod.fst) evalDup_pairs
  simp only [List.map_map] at h
  have h2 : (evaluate_discounts envAB 10000 none "GUI" ["a", "A "]).1.map
      DiscountLine.code = [some "A", some "A"] := by
    simpa [Function.comp] using h
  rw [h2]
  refine ⟨by simp, by simp⟩

section ItemMergeLemmas

lemma createDup_eval :
    processCreateItems [steak] [] 0
        [⟨"steak", 2, []⟩, ⟨"steak", 3, []⟩]
      = .ok ([⟨"steak", 5, 30000, false, "added", []⟩], 150000) := by
  norm_num [processCreateItems, findActiveItem, List.find?, steak,
    calc_item_unit_cents, calcItemFold, roundHalfUp, persistSnap,
    show (decide (("steak" : String) = "steak")) = true from by decide]

lemma previewDup_eval :
    processPreviewItems [steak] [⟨"steak", 2, []⟩, ⟨"steak", 3, []⟩]
      = .ok ([⟨"steak", "Steak", 2, 30000, [], 60000⟩,
              ⟨"steak", "Steak", 3, 30000, [], 90000⟩], 150000) := by
  norm_num [processPreviewItems, findActiveItem, List.find?, steak,
    calc_item_unit_cents, calcItemFold, roundHalfUp,
    show (decide (("steak" : String) = "steak")) = true from by decide]

lemma map_codes_invariant (rows : List ItemRow) (g : ItemRow → ItemRow)
    (hg : ∀ r, (g r).itemCode = r.itemCode) :
    (rows.map g).map ItemRow.itemCode = rows.map ItemRow.itemCode := by
  induction rows with
  | nil => rfl
  | cons r rest ih => simp [hg, ih]

lemma processCreateItems_nodup (menuItems : List MenuItem)
    (reqs : List ItemRequest) :
    ∀ (rows : List ItemRow) (subtotal : ℤ) (rows' : List ItemRow)
      (subtotal' : ℤ),
    processCreateItems menuItems rows subtotal reqs = .ok (rows', subtotal') →
    (rows.map ItemRow.itemCode).Nodup → (rows'.map ItemRow.itemCode).Nodup := by
  induction reqs with
  | nil =>
    intro rows subtotal rows' subtotal' h hnd
    simp only [processCreateItems, Except.ok.injEq] at h
    obtain ⟨rfl, -⟩ := Prod.mk.injEq .. ▸ h
    simpa using hnd
  | cons it rest ih =>
    intro rows subtotal rows' subtotal' h hnd
    rw [processCreateItems] at h
    rcases hf : findActiveItem menuItems it.code with _ | item <;>
      rw [hf] at h
    · simp at h
    · dsimp only at h
      split_ifs at h with hany
      · refine ih _ _ _ _ h ?_
        rw [map_codes_invariant rows _
          (fun r => by by_cases hr : r.itemCode = it.code <;> simp [hr])]
        exact hnd
      · refine ih _ _ _ _ h ?_
        have hnotin : ∀ r ∈ rows, ¬ r.itemCode = it.code := by
          intro r hr hc
          exact hany (List.any_eq_true.mpr ⟨r, hr, by simp [hc]⟩)
        simp only [List.map_append, List.map_cons, List.map_nil]
        rw [List.nodup_append]
        refine ⟨hnd, by simp, ?_⟩
        intro x hx
        simp only [List.mem_map] at hx
        obtain ⟨r, hr, rfl⟩ := hx
        simp only [List.mem_singleton]
        intro hc
        exact hnotin r hr (by simpa using hc)

lemma processPreviewItems_len (menuItems : List MenuItem)
    (reqs : List ItemRequest) :
    ∀ (lines : List PreviewLine) (total : ℤ),
    processPreviewItems menuItems reqs = .ok (lines, total) →
    lines.length = reqs.length := by
  induction reqs with
  | nil =>
    intro lines total h
    simp only [processPreviewItems, Except.ok.injEq] at h
    obtain ⟨rfl, -⟩ := Prod.mk.injEq .. ▸ h
    simp
  | cons it rest ih =>
    intro lines total h
    rw [processPreviewItems] at h
    rcases hf : findActiveItem menuItems it.code with _ | item <;>
      rw [hf] at h
    · simp at h
    · dsimp only at h
      rcases hr : processPreviewItems menuItems rest with e | ⟨ls, t⟩ <;>
        rw [hr] at h
      · simp at h
      · simp only [Except.ok.injEq] at h
        obtain ⟨rfl, -⟩ := Prod.mk.injEq .. ▸ h
        simpa using ih ls t hr

end ItemMergeLemmas

/-- C8 (amended): order creation merges duplicate free-item lines —
`get_or_create` keys rows by item, so item codes stay unique and a
repeated code adds its quantity to the existing row (a default row's
`unchanged` tag becoming `added`); the price preview, however, does
*not* merge: it emits exactly one `line_items` entry per requested line,
duplicates included. -/
theorem creation_merges_duplicates_preview_does_not :
    (∀ (menuItems : List MenuItem) (rows : List ItemRow) (subtotal : ℤ)
       (reqs : List ItemRequest) (rows' : List ItemRow) (subtotal' : ℤ),
      processCreateItems menuItems rows subtotal reqs = .ok (rows', subtotal') →
      (rows.map ItemRow.itemCode).Nodup → (rows'.map ItemRow.itemCode).Nodup)
    ∧ (∀ (menuItems : List MenuItem) (reqs : List ItemRequest)
         (lines : List PreviewLine) (total : ℤ),
      processPreviewItems menuItems reqs = .ok (lines, total) →
      lines.length = reqs.length)
    ∧ processCreateItems [steak] [] 0
        [⟨"steak", 2, []⟩, ⟨"steak", 3, []⟩]
        = .ok ([⟨"steak", 5, 30000, false, "added", []⟩], 150000)
    ∧ processPreviewItems [steak] [⟨"steak", 2, []⟩, ⟨"steak", 3, []⟩]
        = .ok ([⟨"steak", "Steak", 2, 30000, [], 60000⟩,
                ⟨"steak", "Steak", 3, 30000, [], 90000⟩], 150000) :=
  ⟨fun menuItems rows subtotal reqs rows' subtotal' h hnd =>
      processCreateItems_nodup menuItems reqs rows subtotal rows' subtotal' h hnd,
   fun menuItems reqs lines total h => processPreviewItems_len menuItems reqs lines total h,
   createDup_eval, previewDup_eval⟩

/-- Counterexample to C8 as stated: the price preview keeps the same item
code requested twice as *two* separate line items (quantities 2 and 3,
not one merged line of 5). -/
theorem preview_duplicates_not_merged :
    (processPreviewItems [steak] [⟨"steak", 2, []⟩, ⟨"steak", 3, []⟩]).toOption.map
        (fun p => p.1.map PreviewLine.itemCode) = some ["steak", "steak"]
    ∧ (processPreviewItems [steak]
        [⟨"steak", 2, []⟩, ⟨"steak", 3, []⟩]).toOption.map
        (fun p => p.1.length) = some 2
    ∧ ¬ ((2 : ℕ) ≤ 1) := by
  rw [previewDup_eval]
  refine ⟨by simp [Except.toOption], by simp [Except.toOption], by omega⟩

/-- Witness for C8 (amended): the merge invariant and the one-line-per-
request rule instantiated on the duplicate-steak request. -/
theorem creation_merges_duplicates_preview_does_not_witness :
    (([⟨"steak", 5, 30000, false, "added", []⟩] : List ItemRow).map
        ItemRow.itemCode).Nodup
    ∧ ([⟨"steak", "Steak", 2, 30000, [], 60000⟩,
        ⟨"steak", "Steak", 3, 30000, [], 90000⟩] : List PreviewLine).length
      = ([⟨"steak", 2, []⟩, ⟨"steak", 3, []⟩] : List ItemRequest).length :=
  ⟨creation_merges_duplicates_preview_does_not.1 [steak] [] 0
      [⟨"steak", 2, []⟩, ⟨"steak", 3, []⟩] _ _
      creation_merges_duplicates_preview_does_not.2.2.1 (by simp),
   creation_merges_duplicates_preview_does_not.2.1 [steak]
      [⟨"steak", 2, []⟩, ⟨"steak", 3, []⟩] _ _
      creation_merges_duplicates_preview_does_not.2.2.2⟩

section SnapshotLemmas

lemma applyDinnerOptions_deltas_sum (u : ℤ) (dops : List DinnerOption) :
    ((applyDinnerOptions u dops).2).sum = (applyDinnerOptions u dops).1 - u := by
  induction dops generalizing u with
  | nil => simp [applyDinnerOptions]
  | cons dop rest ih =>
    have h := ih (u + dinnerOptionDelta u dop)
    simp only [applyDinnerOptions, List.sum_cons]
    omega

lemma persistDinnerOptionRows_deltas (u : ℤ) (dops : List DinnerOption) :
    (persistDinnerOptionRows dops (applyDinnerOptions u dops).2).map
      StoredOptionRow.priceDeltaCents = (applyDinnerOptions u dops).2 := by
  induction dops generalizing u with
  | nil => rfl
  | cons dop rest ih =>
    simpa [applyDinnerOptions, persistDinnerOptionRows]
      using ih (u + dinnerOptionDelta u dop)

end SnapshotLemmas

/-- C6 (amended): persisted option snapshots never store a multiplier —
both `OrderDinnerOption` and `OrderItemOption` rows are created with
`multiplier=None` — and for *dinner* options the stored
`price_delta_cents` are the resolved delta equivalents (they are exactly
the loop's deltas, which sum to the option chain's full effect on the
unit price).  A multiplier-mode *item* option, however, is persisted
with `price_delta_cents = 0`: its effect lives only in the line's unit
price, not in the stored option row. -/
theorem persisted_snapshots_store_delta_only :
    (∀ (dops : List DinnerOption) (deltas : List ℤ) (r : StoredOptionRow),
      r ∈ persistDinnerOptionRows dops deltas → r.multiplier = none)
    ∧ (∀ s : OptionSnap, (persistSnap s).multiplier = none
        ∧ (persistSnap s).priceDeltaCents = s.priceDeltaCents)
    ∧ (∀ (u : ℤ) (dops : List DinnerOption),
      ((applyDinnerOptions u dops).2).sum = (applyDinnerOptions u dops).1 - u)
    ∧ (∀ (u : ℤ) (dops : List DinnerOption),
      (persistDinnerOptionRows dops (applyDinnerOptions u dops).2).map
        StoredOptionRow.priceDeltaCents = (applyDinnerOptions u dops).2)
    ∧ (∀ (item : MenuItem) (opts : List ItemOption) (s : OptionSnap),
      s ∈ (calc_item_unit_cents item opts).2 → s.multiplier ≠ none →
      s.priceDeltaCents = 0) := by
  refine ⟨?_, fun s => ⟨rfl, rfl⟩, applyDinnerOptions_deltas_sum,
    persistDinnerOptionRows_deltas, ?_⟩
  · intro dops deltas r hr
    rw [persistDinnerOptionRows, List.mem_map] at hr
    obtain ⟨p, -, rfl⟩ := hr
    rfl
  · intro item opts s hs hmul
    rw [calc_item_unit_cents] at hs
    dsimp only at hs
    induction opts with
    | nil => simp [calcItemFold] at hs
    | cons o rest ih =>
      rcases hm : o.groupPriceMode.getD .addon <;>
        rw [calcItemFold] at hs <;>
        simp only [hm] at hs <;>
        rcases List.mem_cons.mp hs with h | h
      · rw [h] at hmul
        simp at hmul
      · exact ih h
      · rw [h]
      · exact ih h

/-- Counterexample to C6 as stated: a ×1.2 multiplier item option on a
100,000-cent item prices the line at 120,000, but its persisted
`OrderItemOption` row stores `price_delta_cents = 0` (and
`multiplier = None`), so the stored delta does not account for the
option's +20,000 price effect. -/
theorem item_multiplier_snapshot_loses_effect :
    (calc_item_unit_cents ⟨"steak", "Steak", 100000, true⟩ [largeOpt]).1
      = 120000
    ∧ ((calc_item_unit_cents ⟨"steak", "Steak", 100000, true⟩
        [largeOpt]).2.map persistSnap)
      = [⟨"size", "Large", 0, none⟩]
    ∧ (100000 : ℤ) + 0 ≠ 120000 := by
  refine ⟨?_, ?_, by norm_num⟩
  · norm_num [calc_item_unit_cents, calcItemFold, largeOpt, roundHalfUp]
  · norm_num [calc_item_unit_cents, calcItemFold, largeOpt, persistSnap]

/-- Witness for C6 (amended): a persisted dinner-option row carries no
multiplier, and the ephemeral multiplier snapshot of an item option
carries delta 0. -/
theorem persisted_snapshots_store_delta_only_witness :
    (⟨"drinks", "Champagne", 18000, none⟩ : StoredOptionRow).multiplier = none
    ∧ (⟨"size", "Large", 0, some (12/10)⟩ : OptionSnap).priceDeltaCents = 0 :=
  ⟨persisted_snapshots_store_delta_only.1 [champagneOpt] [18000]
      ⟨"drinks", "Champagne", 18000, none⟩
      (by simp [persistDinnerOptionRows, champagneOpt]),
   persisted_snapshots_store_delta_only.2.2.2.2
      ⟨"steak", "Steak", 100000, true⟩ [largeOpt]
      ⟨"size", "Large", 0, some (12/10)⟩
      (by norm_num [calc_item_unit_cents, calcItemFold, largeOpt])
      (by simp)⟩
